import Mathlib

/-!
Shallow embedding of the inventory reorder pipeline
(`fetchInventoryData`, `analyzeSkuMetadata`, `generateMockData` and the
CSV line splitter) together with proofs of the specification claims.

Modelling conventions:
* JavaScript numbers are modelled as `Int` (for parsed integer cells)
  and `Rat` (for derived averages and growth percentages).  All the
  arithmetic appearing in the source stays well inside the range where
  IEEE doubles are exact on these values, except `toFixed(1)` which is
  modelled by exact decimal rounding (`toFixed1` below) — for values of
  the form `cw / 7` the double rounding and the exact rounding agree,
  since `10*cw/7` is never within `1/14` of a half-integer.
* Dates are modelled as integer day numbers; `today` is an explicit
  parameter (`setDate` arithmetic is plain day addition).
* The current month used by the season decoder is an explicit parameter,
  as the spec's design notes direct.
* A missing array cell (`row[i]` beyond the row's length, `undefined` in
  JS) behaves, at every use site of the source, exactly like the empty
  string: both are falsy for `||` and both make `parseInt` return `NaN`.
  So rows are `List String` and cells are read with `cellAt` (default
  `""`).
-/

/-- Reorder status, from the source `ReorderStatus` enum
(`'Safe' | 'Warning' | 'Critical'`). -/
inductive ReorderStatus : Type
  | SAFE
  | WARNING
  | CRITICAL
deriving DecidableEq

/-- Item type derived from the sku sub-category code.  The source uses the
string literals `'일반'` (general), `'패딩'` (padding), `'아우터'` (outer). -/
inductive ItemType : Type
  | general
  | padding
  | outer
deriving DecidableEq

/-- A forecast date field: either a concrete day number, or one of the two
sentinel labels the source stores instead of a date
(`'안정적'` = stable, `'해당없음'` = not applicable). -/
inductive DateLabel : Type
  | stable
  | notApplicable
  | onDay (d : Int)
deriving DecidableEq

/-- The reconstructed inventory record, from the source `InventoryItem`
interface. -/
structure InventoryItem : Type where
  id : String
  category : String
  brand : String
  productName : String
  barcode : String
  sku : String
  currentStock : Int
  inProductionStock : Int
  safetyStock : Int
  reorderPoint : Int
  dailySalesAvg : Rat
  currentWeekSales : Int
  lastWeekSales : Int
  leadTimeDays : Int
  unitCost : Int
  status : ReorderStatus
  salesGrowth : Rat
  expectedStockOutDate : DateLabel
  suggestedOrderDate : DateLabel
  itemType : ItemType
  isSeasonalFit : Bool
deriving DecidableEq

/-- Read cell `i` of a row; a missing cell reads as `""` (see the module
comment for why this is faithful to `undefined`). -/
def cellAt (row : List String) (i : Nat) : String := row.getD i ""

/-- JS `s || d` for strings: the empty string is falsy. -/
def jsOrStr (s d : String) : String := if s = "" then d else s

/-- Is `c` a digit of the given radix (10 or 16)? -/
def isRadixDigit (radix : Nat) (c : Char) : Bool :=
  c.isDigit || (radix == 16 && (('a' ≤ c && c ≤ 'f') || ('A' ≤ c && c ≤ 'F')))

/-- Numeric value of a (radix-16-or-less) digit character. -/
def hexVal (c : Char) : Nat :=
  if c.isDigit then c.toNat - '0'.toNat
  else if 'a' ≤ c ∧ c ≤ 'f' then c.toNat - 'a'.toNat + 10
  else c.toNat - 'A'.toNat + 10

/-- Accumulate a digit string into a natural number. -/
def digitsToNat (radix : Nat) (ds : List Char) : Nat :=
  ds.foldl (fun acc c => acc * radix + hexVal c) 0

/-- Parse an unsigned integer prefix the way JS `parseInt` does after the
sign: an optional `0x`/`0X` prefix selects radix 16, then the longest
prefix of radix digits is taken; no digits means `NaN` (`none`). -/
def parseUnsigned (cs : List Char) : Option Nat :=
  let p : Nat × List Char :=
    match cs with
    | '0' :: 'x' :: rest => (16, rest)
    | '0' :: 'X' :: rest => (16, rest)
    | _ => (10, cs)
  let ds := p.2.takeWhile (fun c => isRadixDigit p.1 c)
  if ds = [] then none else some (digitsToNat p.1 ds)

/-- JS `parseInt(s)` (radix unspecified): skip leading whitespace, read an
optional sign, then parse the longest numeric prefix; `none` models `NaN`. -/
def jsParseInt (s : String) : Option Int :=
  match s.toList.dropWhile Char.isWhitespace with
  | '-' :: rest => (parseUnsigned rest).map (fun n => -(n : Int))
  | '+' :: rest => (parseUnsigned rest).map (fun n => (n : Int))
  | cs => (parseUnsigned cs).map (fun n => (n : Int))

/-- JS `parseInt(cell) || fallback`: `NaN` (`none`) and `0` are falsy, any
other parsed value is kept. -/
def jsOr (v : Option Int) (fallback : Int) : Int :=
  match v with
  | none => fallback
  | some n => if n = 0 then fallback else n

/-- `parseFloat(x.toFixed(1))`: round to one decimal place (the unique
half-away case `pick the larger n` of the ECMA spec matches Mathlib
`round`; no exact halves occur for the `cw / 7` values this is applied
to). -/
def toFixed1 (x : Rat) : Rat := ((round (10 * x) : Int) : Rat) / 10

/-- Sku decoding result (`{ type, leadTime, isSeasonalFit }`). -/
structure SkuMeta : Type where
  type : ItemType
  leadTime : Int
  isSeasonalFit : Bool
deriving DecidableEq

/-- Season codes accepted in the given month: `A`, `C`, `O` always, plus
the quarter-band code (Feb-Apr `S`, May-Jul `U`, Aug-Oct `F`, else `W`). -/
def seasonCodesFor (month : Nat) : List Char :=
  ['A', 'C', 'O'] ++
    (if 2 ≤ month ∧ month ≤ 4 then ['S']
     else if 5 ≤ month ∧ month ≤ 7 then ['U']
     else if 8 ≤ month ∧ month ≤ 10 then ['F']
     else ['W'])

/-- `analyzeSkuMetadata` from the source, with the current month as an
explicit parameter.  Undersized skus (`!sku || sku.length < 7`) get the
generic fallback; otherwise char 3 is the season code and chars 5-6 the
sub-category code, both upper-cased. -/
def analyzeSkuMetadata (month : Nat) (sku : String) : SkuMeta :=
  if sku = "" ∨ sku.length < 7 then ⟨ItemType.general, 14, true⟩
  else
    let chars := sku.toList
    let seasonCode := (chars.getD 3 ' ').toUpper
    let subCategoryCode : String :=
      String.mk [(chars.getD 5 ' ').toUpper, (chars.getD 6 ' ').toUpper]
    let fit := (seasonCodesFor month).contains seasonCode
    if subCategoryCode = "DW" ∨ subCategoryCode = "DV" then
      ⟨ItemType.padding, 50, fit⟩
    else if subCategoryCode ∈ ["CT", "JP", "JK", "WB", "TJ", "VT", "AR", "CD"] then
      ⟨ItemType.outer, 35, fit⟩
    else
      ⟨ItemType.general, 21, fit⟩

/-- `dailySales = currentWeekSales / 7` (exact, before `toFixed`). -/
def dailySalesAvgOf (cw : Int) : Rat := (cw : Rat) / 7

/-- `daysToStockOut = dailySales > 0 ? Math.floor(currentStock / dailySales) : 365`. -/
def daysToStockOutOf (stock cw : Int) : Int :=
  if dailySalesAvgOf cw > 0 then ⌊(stock : Rat) / dailySalesAvgOf cw⌋ else 365

/-- The status classification of lines 101-103 of the source: `CRITICAL`
when `currentStock <= reorderPoint * 0.5 || daysToStockOut <= 10`, else
`WARNING` when `currentStock <= reorderPoint || daysToStockOut <= 20`,
else `SAFE`. -/
def classifyStatus (currentStock reorderPoint daysToStockOut : Int) : ReorderStatus :=
  if (currentStock : Rat) ≤ (reorderPoint : Rat) * (1 / 2) ∨ daysToStockOut ≤ 10 then
    ReorderStatus.CRITICAL
  else if currentStock ≤ reorderPoint ∨ daysToStockOut ≤ 20 then
    ReorderStatus.WARNING
  else
    ReorderStatus.SAFE

/-- `salesGrowth`: 100 / 0 when last week was 0, else percent change. -/
def salesGrowthOf (cw lw : Int) : Rat :=
  if lw = 0 then (if cw > 0 then 100 else 0)
  else ((cw : Rat) - (lw : Rat)) / (lw : Rat) * 100

/-- The forward-fill accumulator (`lastKnownProductName` / `Brand` /
`Category`). -/
structure FillState : Type where
  productName : String
  brand : String
  category : String
deriving DecidableEq

/-- The initial forward-fill state: all three held values empty. -/
def initFill : FillState := ⟨"", "", ""⟩

/-- One forward-fill step: a non-blank cell (columns 12 / 2 / 1) replaces
the held value, a blank cell keeps it. -/
def updateFill (st : FillState) (row : List String) : FillState :=
  { productName := if cellAt row 12 ≠ "" then cellAt row 12 else st.productName
    brand := if cellAt row 2 ≠ "" then cellAt row 2 else st.brand
    category := if cellAt row 1 ≠ "" then cellAt row 1 else st.category }

/-- Build one `InventoryItem` from a data row, the (already updated)
forward-fill state and the row index — the body of the `.map` callback of
`fetchInventoryData` (lines 81-127 of the source). -/
def makeItem (today : Int) (month : Nat) (st : FillState) (idx : Nat)
    (row : List String) : InventoryItem :=
  let sku := cellAt row 3
  let meta := analyzeSkuMetadata month sku
  let currentStock := jsOr (jsParseInt (cellAt row 33)) 0
  let inProductionStock := jsOr (jsParseInt (cellAt row 34)) 0
  let reorderPoint := jsOr (jsParseInt (cellAt row 7)) 10
  let currentWeekSales := jsOr (jsParseInt (cellAt row 22)) 0
  let lastWeekSales := jsOr (jsParseInt (cellAt row 21)) 0
  let daysToStockOut := daysToStockOutOf currentStock currentWeekSales
  { id := "row-" ++ toString idx
    category := jsOrStr st.category "기타"
    brand := jsOrStr st.brand "브랜드"
    productName := jsOrStr st.productName "알 수 없는 상품"
    barcode := jsOrStr (cellAt row 4) "N/A"
    sku := sku
    currentStock := currentStock
    inProductionStock := inProductionStock
    safetyStock := jsOr (jsParseInt (cellAt row 6)) 5
    reorderPoint := reorderPoint
    dailySalesAvg := toFixed1 (dailySalesAvgOf currentWeekSales)
    currentWeekSales := currentWeekSales
    lastWeekSales := lastWeekSales
    leadTimeDays := meta.leadTime
    unitCost := jsOr (jsParseInt (cellAt row 10)) 0
    status := classifyStatus currentStock reorderPoint daysToStockOut
    salesGrowth := salesGrowthOf currentWeekSales lastWeekSales
    expectedStockOutDate :=
      if daysToStockOut > 360 then DateLabel.stable
      else DateLabel.onDay (today + daysToStockOut)
    suggestedOrderDate :=
      if daysToStockOut > 360 then DateLabel.notApplicable
      else DateLabel.onDay (today + daysToStockOut - meta.leadTime)
    itemType := meta.type
    isSeasonalFit := meta.isSeasonalFit }

/-- The data rows of a parsed sheet: drop the header row, keep rows with
more than 33 fields (`rows.slice(1).filter(row => row.length > 33)`). -/
def dataRowsOf (rows : List (List String)) : List (List String) :=
  (rows.drop 1).filter (fun r => 33 < r.length)

/-- The row-mapping loop of `fetchInventoryData`: thread the forward-fill
state through the data rows, producing one record per row. -/
def reconstructAux (today : Int) (month : Nat) (st : FillState) (idx : Nat) :
    List (List String) → List InventoryItem
  | [] => []
  | row :: rest =>
    let st2 := updateFill st row
    makeItem today month st2 idx row :: reconstructAux today month st2 (idx + 1) rest

/-- All records reconstructed from `rows` (before the product-name filter). -/
def reconItems (today : Int) (month : Nat) (rows : List (List String)) :
    List InventoryItem :=
  reconstructAux today month initFill 0 (dataRowsOf rows)

/-- The pure core of `fetchInventoryData`: reconstruct records, then drop
those whose product name never resolved
(`.filter(item => item.productName !== '알 수 없는 상품')`). -/
def fetchItems (today : Int) (month : Nat) (rows : List (List String)) :
    List InventoryItem :=
  (reconItems today month rows).filter (fun it => it.productName != "알 수 없는 상품")

/-! ### The CSV line splitter (lines 49-65 of the source) -/

/-- Trim surrounding whitespace from a field (JS `String.trim`). -/
def trimField (cs : List Char) : List Char :=
  ((cs.dropWhile Char.isWhitespace).reverse.dropWhile Char.isWhitespace).reverse

/-- The character scan of the splitter: a quote toggles `inQuotes` (and is
dropped), an unquoted comma ends the current field (trimmed), any other
character is appended to the current field; at end of line the current
field is pushed (trimmed). -/
def csvSplitAux (inQuotes : Bool) (current : List Char) :
    List Char → List (List Char)
  | [] => [trimField current]
  | c :: rest =>
    if c = '"' then csvSplitAux (!inQuotes) current rest
    else if c = ',' ∧ inQuotes = false then
      trimField current :: csvSplitAux inQuotes [] rest
    else csvSplitAux inQuotes (current ++ [c]) rest

/-- Split one line into trimmed fields. -/
def splitCsvLine (line : List Char) : List (List Char) :=
  csvSplitAux false [] line

/-- The same scan without trimming: the raw field contents between
unquoted commas (quote characters still dropped). -/
def rawFieldsAux (inQuotes : Bool) (current : List Char) :
    List Char → List (List Char)
  | [] => [current]
  | c :: rest =>
    if c = '"' then rawFieldsAux (!inQuotes) current rest
    else if c = ',' ∧ inQuotes = false then
      current :: rawFieldsAux inQuotes [] rest
    else rawFieldsAux inQuotes (current ++ [c]) rest

/-- Count of separators that are outside quotes — the positions at which
the splitter may break a field. -/
def unquotedCommas (inQuotes : Bool) : List Char → Nat
  | [] => 0
  | c :: rest =>
    if c = '"' then unquotedCommas (!inQuotes) rest
    else if c = ',' ∧ inQuotes = false then 1 + unquotedCommas inQuotes rest
    else unquotedCommas inQuotes rest

/-! ### The synthetic fallback generator (`generateMockData`) -/

/-- One record of `generateMockData`, with the values drawn from
`Math.random` (`cSales`, `lSales`, `stock`, `inProd`) as explicit
parameters; everything else mirrors lines 140-176 of the source.  Note the
status is computed from `stock` alone
(`stock < 25 ? CRITICAL : stock < 50 ? WARNING : SAFE`). -/
def mockItem (month : Nat) (i : Nat) (cSales lSales stock inProd : Int) :
    InventoryItem :=
  let isPadding := i % 8 = 0
  let sku :=
    if isPadding then "FBEWODW00" ++ toString i ++ "BK00M"
    else "FBESUTS00" ++ toString i ++ "WH00L"
  let meta := analyzeSkuMetadata month sku
  let dailySales : Rat := (cSales : Rat) / 7
  let daysToStockOut : Int :=
    ⌊(stock : Rat) / (if dailySales = 0 then 1 else dailySales)⌋
  { id := "mock-" ++ toString i
    category := if isPadding then "아우터" else "상의"
    brand := "FILLUMINATE"
    productName :=
      if isPadding then "필루미네이트 프리미엄 덕다운 패딩 " ++ toString i
      else "필루미네이트 베이직 티셔츠 " ++ toString i
    barcode := "880912345" ++ toString i
    sku := sku
    currentStock := stock
    inProductionStock := inProd
    safetyStock := 10
    reorderPoint := 40
    dailySalesAvg := toFixed1 dailySales
    currentWeekSales := cSales
    lastWeekSales := lSales
    leadTimeDays := meta.leadTime
    unitCost := 45000
    status :=
      if stock < 25 then ReorderStatus.CRITICAL
      else if stock < 50 then ReorderStatus.WARNING
      else ReorderStatus.SAFE
    salesGrowth := salesGrowthOf cSales lSales
    expectedStockOutDate :=
      if daysToStockOut > 360 then DateLabel.stable else DateLabel.onDay daysToStockOut
    suggestedOrderDate :=
      if daysToStockOut > 360 then DateLabel.notApplicable
      else DateLabel.onDay (daysToStockOut - meta.leadTime)
    itemType := meta.type
    isSeasonalFit := meta.isSeasonalFit }

/-! ### Concrete inputs used by counterexamples and witnesses -/

/-- A 34-field data row with the given product name, reorder point, last
week sales, current week sales and current stock (columns 12, 7, 21, 22,
33; category at 1, brand at 2 fixed). -/
def mkDataRow (name rp lw cw stock : String) : List String :=
  ["", "의류", "FL", "", "B1", "", "", rp, "", "", "", "",
   name, "", "", "", "", "", "", "", "", lw, cw, "", "", "", "", "", "",
   "", "", "", "", stock]

/-- Forward-fill state after folding a list of rows. -/
def fillAfter (st : FillState) (rs : List (List String)) : FillState :=
  rs.foldl updateFill st

/-- The last non-blank entry of a column, if any — the value forward-fill
propagates. -/
def lastNonBlank (l : List String) : Option String :=
  (l.filter (fun s => s != "")).getLast?

/-- Column `i` of a row list. -/
def fieldCol (i : Nat) (rows : List (List String)) : List String :=
  rows.map (fun r => cellAt r i)

/-- A data row with a resolvable product name; stock 70, weekly sales 70,
reorder point 40. -/
def rowA : List String := mkDataRow "상품" "40" "3" "70" "70"

/-- A sheet with one data row (`rowA`) behind an empty header row. -/
def rowsA : List (List String) := [[], rowA]

/-- The record reconstructed from `rowA`. -/
def itemA : InventoryItem := makeItem 0 3 (updateFill initFill rowA) 0 rowA

/-- A sheet whose stock cell holds the negative numeral `-5`. -/
def rowsNegStock : List (List String) := [[], mkDataRow "상품" "40" "3" "7" "-5"]

/-- A sheet whose current-week-sales cell holds `1`. -/
def rowsOneSale : List (List String) := [[], mkDataRow "상품" "40" "3" "1" "70"]

/-- The record reconstructed from the `rowsOneSale` data row. -/
def itemOneSale : InventoryItem :=
  makeItem 0 3 (updateFill initFill (mkDataRow "상품" "40" "3" "1" "70")) 0
    (mkDataRow "상품" "40" "3" "1" "70")

/-- A sheet whose reorder-point cell holds the numeral `0`. -/
def rowsZeroRp : List (List String) := [[], mkDataRow "상품" "0" "3" "7" "50"]

/-- A data row whose product-name cell is blank. -/
def rowBlank : List String := mkDataRow "" "40" "3" "7" "50"

/-- A sheet whose only data row never resolves a product name. -/
def rowsUnnamed : List (List String) := [[], rowBlank]

/-- The record reconstructed from `rowBlank` as the first data row. -/
def itemUnnamed : InventoryItem :=
  makeItem 0 3 (updateFill initFill rowBlank) 0 rowBlank

/-- A sheet where a named row precedes a blank-named row. -/
def rowsFill : List (List String) := [[], rowA, rowBlank]

/-- The record reconstructed from the blank-named second data row of
`rowsFill`. -/
def itemFill : InventoryItem :=
  makeItem 0 3 (updateFill (updateFill initFill rowA) rowBlank) 1 rowBlank

/-! ### Helper lemmas -/

theorem fillAfter_cons (st : FillState) (r : List String) (rs : List (List String)) :
    fillAfter st (r :: rs) = fillAfter (updateFill st r) rs := rfl

theorem fillAfter_append (st : FillState) (a b : List (List String)) :
    fillAfter st (a ++ b) = fillAfter (fillAfter st a) b :=
  List.foldl_append _ _ _ _

theorem makeItem_status (t : Int) (m : Nat) (st : FillState) (idx : Nat)
    (row : List String) :
    (makeItem t m st idx row).status =
      classifyStatus (makeItem t m st idx row).currentStock
        (makeItem t m st idx row).reorderPoint
        (daysToStockOutOf (makeItem t m st idx row).currentStock
          (makeItem t m st idx row).currentWeekSales) := rfl

theorem makeItem_dailySalesAvg (t : Int) (m : Nat) (st : FillState) (idx : Nat)
    (row : List String) :
    (makeItem t m st idx row).dailySalesAvg =
      toFixed1 (dailySalesAvgOf (makeItem t m st idx row).currentWeekSales) := rfl

theorem makeItem_expected (t : Int) (m : Nat) (st : FillState) (idx : Nat)
    (row : List String) :
    (makeItem t m st idx row).expectedStockOutDate =
      (if daysToStockOutOf (makeItem t m st idx row).currentStock
            (makeItem t m st idx row).currentWeekSales > 360
       then DateLabel.stable
       else DateLabel.onDay (t + daysToStockOutOf (makeItem t m st idx row).currentStock
              (makeItem t m st idx row).currentWeekSales)) := rfl

theorem makeItem_suggested (t : Int) (m : Nat) (st : FillState) (idx : Nat)
    (row : List String) :
    (makeItem t m st idx row).suggestedOrderDate =
      (if daysToStockOutOf (makeItem t m st idx row).currentStock
            (makeItem t m st idx row).currentWeekSales > 360
       then DateLabel.notApplicable
       else DateLabel.onDay (t + daysToStockOutOf (makeItem t m st idx row).currentStock
              (makeItem t m st idx row).currentWeekSales -
              (makeItem t m st idx row).leadTimeDays)) := rfl

theorem makeItem_productName (t : Int) (m : Nat) (st : FillState) (idx : Nat)
    (row : List String) :
    (makeItem t m st idx row).productName = jsOrStr st.productName "알 수 없는 상품" := rfl

theorem makeItem_brand (t : Int) (m : Nat) (st : FillState) (idx : Nat)
    (row : List String) :
    (makeItem t m st idx row).brand = jsOrStr st.brand "브랜드" := rfl

theorem makeItem_category (t : Int) (m : Nat) (st : FillState) (idx : Nat)
    (row : List String) :
    (makeItem t m st idx row).category = jsOrStr st.category "기타" := rfl

theorem mem_reconstructAux {today : Int} {month : Nat} :
    ∀ (rs : List (List String)) (st : FillState) (idx : Nat) (it : InventoryItem),
      it ∈ reconstructAux today month st idx rs →
      ∃ st2 i row, row ∈ rs ∧ it = makeItem today month st2 i row := by
  intro rs
  induction rs with
  | nil => intro st idx it h; simp [reconstructAux] at h
  | cons row rest ih =>
    intro st idx it h
    simp only [reconstructAux, List.mem_cons] at h
    rcases h with h | h
    · exact ⟨updateFill st row, idx, row, by simp, h⟩
    · obtain ⟨st2, i, r, hr, he⟩ := ih (updateFill st row) (idx + 1) it h
      exact ⟨st2, i, r, by simp [hr], he⟩

theorem mem_fetchItems_repr {today : Int} {month : Nat}
    {rows : List (List String)} {it : InventoryItem}
    (h : it ∈ fetchItems today month rows) :
    ∃ st2 i row, row ∈ dataRowsOf rows ∧ it = makeItem today month st2 i row := by
  have h1 : it ∈ reconItems today month rows := (List.mem_filter.mp h).1
  exact mem_reconstructAux (dataRowsOf rows) initFill 0 it h1

theorem fetchItems_status {today : Int} {month : Nat}
    {rows : List (List String)} {it : InventoryItem}
    (h : it ∈ fetchItems today month rows) :
    it.status = classifyStatus it.currentStock it.reorderPoint
      (daysToStockOutOf it.currentStock it.currentWeekSales) := by
  obtain ⟨st2, i, row, _, he⟩ := mem_fetchItems_repr h
  subst he
  rfl

theorem csvSplitAux_length :
    ∀ (l : List Char) (inQ : Bool) (cur : List Char),
      (csvSplitAux inQ cur l).length = 1 + unquotedCommas inQ l := by
  intro l
  induction l with
  | nil => intro inQ cur; simp [csvSplitAux, unquotedCommas]
  | cons c rest ih =>
    intro inQ cur
    by_cases h1 : c = '"'
    · simp [csvSplitAux, unquotedCommas, h1, ih]
    · by_cases h2 : c = ',' ∧ inQ = false
      · simp [csvSplitAux, unquotedCommas, h1, h2, ih]
        omega
      · simp [csvSplitAux, unquotedCommas, h1, h2, ih]

theorem csvSplitAux_eq_map_trim :
    ∀ (l : List Char) (inQ : Bool) (cur : List Char),
      csvSplitAux inQ cur l = (rawFieldsAux inQ cur l).map trimField := by
  intro l
  induction l with
  | nil => intro inQ cur; simp [csvSplitAux, rawFieldsAux]
  | cons c rest ih =>
    intro inQ cur
    by_cases h1 : c = '"'
    · simp [csvSplitAux, rawFieldsAux, h1, ih]
    · by_cases h2 : c = ',' ∧ inQ = false
      · simp [csvSplitAux, rawFieldsAux, h1, h2, ih]
      · simp [csvSplitAux, rawFieldsAux, h1, h2, ih]

theorem reconstructAux_getElem? {t : Int} {m : Nat} :
    ∀ (rs : List (List String)) (st : FillState) (idx k : Nat),
      (reconstructAux t m st idx rs)[k]? =
        (rs[k]?).map
          (fun row => makeItem t m (fillAfter st (rs.take (k + 1))) (idx + k) row) := by
  intro rs
  induction rs with
  | nil => intro st idx k; simp [reconstructAux]
  | cons row rest ih =>
    intro st idx k
    cases k with
    | zero =>
      simp [reconstructAux, fillAfter]
    | succ k =>
      have harith : idx + 1 + k = idx + (k + 1) := by omega
      simp only [reconstructAux, List.getElem?_cons_succ, List.take_succ_cons]
      rw [ih (updateFill st row) (idx + 1) k, fillAfter_cons, harith]

theorem getLast?_cons_getD (x d : String) (l : List String) :
    ((x :: l).getLast?).getD d = (l.getLast?).getD x := by
  cases l with
  | nil => rfl
  | cons y ys =>
    rw [List.getLast?_cons_cons]
    have h : ((y :: ys).getLast?).isSome := by
      rw [List.getLast?_isSome]
      simp
    obtain ⟨v, hv⟩ := Option.isSome_iff_exists.mp h
    rw [hv]
    rfl

theorem lastNonBlank_cons_getD (x d : String) (l : List String) :
    (lastNonBlank (x :: l)).getD d =
      (lastNonBlank l).getD (if x ≠ "" then x else d) := by
  unfold lastNonBlank
  by_cases h : x = ""
  · simp [List.filter_cons, h]
  · have hb : (x != "") = true := by simpa using h
    rw [List.filter_cons, if_pos hb, if_pos h]
    exact getLast?_cons_getD x d _

theorem fillAfter_field :
    ∀ (rs : List (List String)) (st : FillState),
      (fillAfter st rs).productName =
          (lastNonBlank (fieldCol 12 rs)).getD st.productName ∧
      (fillAfter st rs).brand = (lastNonBlank (fieldCol 2 rs)).getD st.brand ∧
      (fillAfter st rs).category = (lastNonBlank (fieldCol 1 rs)).getD st.category := by
  intro rs
  induction rs with
  | nil => intro st; exact ⟨rfl, rfl, rfl⟩
  | cons r rest ih =>
    intro st
    obtain ⟨ih1, ih2, ih3⟩ := ih (updateFill st r)
    refine ⟨?_, ?_, ?_⟩ <;> rw [fillAfter_cons]
    · rw [ih1]
      unfold fieldCol
      rw [List.map_cons, lastNonBlank_cons_getD]
      rfl
    · rw [ih2]
      unfold fieldCol
      rw [List.map_cons, lastNonBlank_cons_getD]
      rfl
    · rw [ih3]
      unfold fieldCol
      rw [List.map_cons, lastNonBlank_cons_getD]
      rfl

theorem lastNonBlank_some_ne {l : List String} {v : String}
    (h : lastNonBlank l = some v) : v ≠ "" := by
  unfold lastNonBlank at h
  obtain ⟨hne, hv⟩ :=
    List.mem_getLast?_eq_getLast (l := l.filter (fun s => s != "")) (x := v) h
  have hmem : v ∈ l.filter (fun s => s != "") := by
    rw [hv]
    exact List.getLast_mem hne
  have := (List.mem_filter.mp hmem).2
  simpa using this

theorem cellAt_mem {row : List String} {i : Nat} (h : i < row.length) :
    cellAt row i ∈ row := by
  unfold cellAt
  rw [List.getD_eq_getElem row "" h]
  exact List.getElem_mem h

theorem jsOr_nonneg {v : Option Int} {fb : Int} (hfb : 0 ≤ fb)
    (hv : 0 ≤ v.getD 0) : 0 ≤ jsOr v fb := by
  cases v with
  | none => exact hfb
  | some n =>
    simp only [jsOr, Option.getD_some] at *
    split_ifs
    · exact hfb
    · exact hv

theorem fetchItems_rowsA : fetchItems 0 3 rowsA = [itemA] := rfl

theorem memItemA : itemA ∈ fetchItems 0 3 rowsA := by
  rw [fetchItems_rowsA]
  exact List.mem_singleton.mpr rfl

theorem fetchItems_rowsOneSale : fetchItems 0 3 rowsOneSale = [itemOneSale] := rfl

theorem memItemOneSale : itemOneSale ∈ fetchItems 0 3 rowsOneSale := by
  rw [fetchItems_rowsOneSale]
  exact List.mem_singleton.mpr rfl

theorem itemA_horizon :
    daysToStockOutOf itemA.currentStock itemA.currentWeekSales = 7 := by
  have e1 : itemA.currentStock = 70 := rfl
  have e2 : itemA.currentWeekSales = 70 := rfl
  rw [e1, e2]
  norm_num [daysToStockOutOf, dailySalesAvgOf]

theorem updateFill_productName (st : FillState) (row : List String) :
    (updateFill st row).productName =
      (if cellAt row 12 ≠ "" then cellAt row 12 else st.productName) := rfl

theorem updateFill_brand (st : FillState) (row : List String) :
    (updateFill st row).brand =
      (if cellAt row 2 ≠ "" then cellAt row 2 else st.brand) := rfl

theorem updateFill_category (st : FillState) (row : List String) :
    (updateFill st row).category =
      (if cellAt row 1 ≠ "" then cellAt row 1 else st.category) := rfl

theorem fillAfter_snoc (st : FillState) (a : List (List String)) (row : List String) :
    fillAfter st (a ++ [row]) = updateFill (fillAfter st a) row := by
  rw [fillAfter_append]
  rfl

/-! ### Claim theorems -/

/-- C1: every reconstructed record's status is Critical when
`currentStock ≤ reorderPoint * 0.5` or `daysToStockOut ≤ 10`, otherwise
Warning when `currentStock ≤ reorderPoint` or `daysToStockOut ≤ 20`,
otherwise Safe, with the Critical condition checked first; stock equal to
the reorder point is never Safe, and stock equal to half the reorder point
is Critical. -/
theorem status_classification (today : Int) (month : Nat)
    (rows : List (List String)) (it : InventoryItem)
    (hmem : it ∈ fetchItems today month rows) :
    (it.status = ReorderStatus.CRITICAL ↔
      ((it.currentStock : Rat) ≤ (it.reorderPoint : Rat) * (1 / 2) ∨
        daysToStockOutOf it.currentStock it.currentWeekSales ≤ 10)) ∧
    (it.status = ReorderStatus.WARNING ↔
      (¬ ((it.currentStock : Rat) ≤ (it.reorderPoint : Rat) * (1 / 2) ∨
          daysToStockOutOf it.currentStock it.currentWeekSales ≤ 10) ∧
        (it.currentStock ≤ it.reorderPoint ∨
          daysToStockOutOf it.currentStock it.currentWeekSales ≤ 20))) ∧
    (it.status = ReorderStatus.SAFE ↔
      (¬ ((it.currentStock : Rat) ≤ (it.reorderPoint : Rat) * (1 / 2) ∨
          daysToStockOutOf it.currentStock it.currentWeekSales ≤ 10) ∧
        ¬ (it.currentStock ≤ it.reorderPoint ∨
          daysToStockOutOf it.currentStock it.currentWeekSales ≤ 20))) ∧
    (it.currentStock = it.reorderPoint → it.status ≠ ReorderStatus.SAFE) ∧
    ((it.currentStock : Rat) = (it.reorderPoint : Rat) * (1 / 2) →
      it.status = ReorderStatus.CRITICAL) := by
  have hst := fetchItems_status hmem
  rw [hst]
  unfold classifyStatus
  refine ⟨?_, ?_, ?_, ?_, ?_⟩
  · split_ifs with h1 h2 <;> simp_all
  · split_ifs with h1 h2 <;> simp_all
  · split_ifs with h1 h2 <;> simp_all
  · intro heq
    split_ifs with h1 h2 <;> simp_all
  · intro heq
    rw [if_pos (Or.inl (le_of_eq heq))]

/-- C1 witness: the record of `rowsA` (stock 70, weekly sales 70) is
classified Critical. -/
theorem status_classification_witness : itemA.status = ReorderStatus.CRITICAL := by
  have h := status_classification 0 3 rowsA itemA memItemA
  refine h.1.mpr (Or.inr ?_)
  rw [itemA_horizon]
  norm_num

/-- C5 (amended): records of the normal ingestion path carry a status that
is exactly `classifyStatus` of their stock, reorder point and stock-out
horizon; the synthetic fallback records instead derive their status from
`currentStock` alone (< 25 Critical, < 50 Warning, else Safe). -/
theorem status_deterministic_amended :
    (∀ (today : Int) (month : Nat) (rows : List (List String))
       (it : InventoryItem), it ∈ fetchItems today month rows →
        it.status = classifyStatus it.currentStock it.reorderPoint
          (daysToStockOutOf it.currentStock it.currentWeekSales)) ∧
    (∀ (month i : Nat) (cSales lSales stock inProd : Int),
      (mockItem month i cSales lSales stock inProd).status =
        (if stock < 25 then ReorderStatus.CRITICAL
         else if stock < 50 then ReorderStatus.WARNING
         else ReorderStatus.SAFE)) := by
  constructor
  · intro today month rows it hmem
    exact fetchItems_status hmem
  · intro month i cSales lSales stock inProd
    rfl

/-- C5 counterexample: a fallback record producible by the generator
(stock 99, weekly sales 219, both within the generator's ranges) is Safe,
while the normal classification of the same stock, reorder point and
stock-out horizon is Critical — so the fallback set does not share the
normal status function. -/
theorem mock_status_counterexample :
    (mockItem 3 1 219 150 99 10).status = ReorderStatus.SAFE ∧
    classifyStatus (mockItem 3 1 219 150 99 10).currentStock
      (mockItem 3 1 219 150 99 10).reorderPoint
      (daysToStockOutOf (mockItem 3 1 219 150 99 10).currentStock
        (mockItem 3 1 219 150 99 10).currentWeekSales) = ReorderStatus.CRITICAL ∧
    (20 ≤ (219 : Int) ∧ (219 : Int) ≤ 219 ∧ 0 ≤ (99 : Int) ∧ (99 : Int) ≤ 99) := by
  refine ⟨rfl, ?_, by decide⟩
  have e1 : (mockItem 3 1 219 150 99 10).currentStock = 99 := rfl
  have e2 : (mockItem 3 1 219 150 99 10).reorderPoint = 40 := rfl
  have e3 : (mockItem 3 1 219 150 99 10).currentWeekSales = 219 := rfl
  rw [e1, e2, e3]
  norm_num [classifyStatus, daysToStockOutOf, dailySalesAvgOf]

/-- C5 witness: the `rowsA` record's status equals the classification
function of its stock, reorder point and horizon. -/
theorem status_deterministic_amended_witness :
    itemA.status = classifyStatus itemA.currentStock itemA.reorderPoint
      (daysToStockOutOf itemA.currentStock itemA.currentWeekSales) :=
  status_deterministic_amended.1 0 3 rowsA itemA memItemA

/-- C9: a sku shorter than 7 characters (including the empty string)
decodes to the generic fallback: type general, lead time 14, seasonal fit
true. -/
theorem short_sku_fallback (sku : String) (month : Nat) (h : sku.length < 7) :
    analyzeSkuMetadata month sku = ⟨ItemType.general, 14, true⟩ := by
  unfold analyzeSkuMetadata
  rw [if_pos (Or.inr h)]

/-- C9 witness: the two-character sku `AB` decodes to the fallback. -/
theorem short_sku_fallback_witness :
    ("AB" : String).length < 7 ∧
    analyzeSkuMetadata 3 "AB" = ⟨ItemType.general, 14, true⟩ :=
  ⟨by decide, short_sku_fallback "AB" 3 (by decide)⟩

/-- C6: the line splitter breaks a line only at separators outside quotes
(field count = 1 + number of unquoted commas), trims every field, never
rejects a line (it is total and the two properties hold for every line);
a quoted field containing the delimiter stays one token, leading and
trailing whitespace is removed, and a doubled quote is not an escape (the
quotes simply toggle and vanish). -/
theorem csv_splitter_spec :
    (∀ l : List Char, (splitCsvLine l).length = 1 + unquotedCommas false l) ∧
    (∀ l : List Char, splitCsvLine l = (rawFieldsAux false [] l).map trimField) ∧
    splitCsvLine ("\"Acme, Inc\",100".toList) = ["Acme, Inc".toList, "100".toList] ∧
    splitCsvLine ("  a  ,\tb".toList) = ["a".toList, "b".toList] ∧
    splitCsvLine ("\"a\"\"b\"".toList) = ["ab".toList] := by
  refine ⟨?_, ?_, by decide, by decide, by decide⟩
  · intro l
    exact csvSplitAux_length l false []
  · intro l
    exact csvSplitAux_eq_map_trim l false []

/-- C10: the stock-out horizon is the floor of stock over daily sales when
daily sales are positive and the sentinel 365 otherwise; the two forecast
fields carry the sentinel labels exactly when the horizon exceeds 360, and
otherwise hold today plus the horizon, respectively that date minus the
lead time. -/
theorem stockout_forecast (today : Int) (month : Nat)
    (rows : List (List String)) (it : InventoryItem)
    (hmem : it ∈ fetchItems today month rows) :
    (dailySalesAvgOf it.currentWeekSales > 0 →
      daysToStockOutOf it.currentStock it.currentWeekSales =
        ⌊(it.currentStock : Rat) / dailySalesAvgOf it.currentWeekSales⌋) ∧
    (¬ dailySalesAvgOf it.currentWeekSales > 0 →
      daysToStockOutOf it.currentStock it.currentWeekSales = 365) ∧
    (daysToStockOutOf it.currentStock it.currentWeekSales > 360 →
      it.expectedStockOutDate = DateLabel.stable ∧
      it.suggestedOrderDate = DateLabel.notApplicable) ∧
    (¬ daysToStockOutOf it.currentStock it.currentWeekSales > 360 →
      it.expectedStockOutDate =
        DateLabel.onDay (today + daysToStockOutOf it.currentStock it.currentWeekSales) ∧
      it.suggestedOrderDate =
        DateLabel.onDay (today + daysToStockOutOf it.currentStock it.currentWeekSales -
          it.leadTimeDays)) := by
  obtain ⟨st2, i, row, _, he⟩ := mem_fetchItems_repr hmem
  subst he
  refine ⟨?_, ?_, ?_, ?_⟩
  · intro h
    unfold daysToStockOutOf
    rw [if_pos h]
  · intro h
    unfold daysToStockOutOf
    rw [if_neg h]
  · intro hd
    exact ⟨by rw [makeItem_expected, if_pos hd], by rw [makeItem_suggested, if_pos hd]⟩
  · intro hd
    exact ⟨by rw [makeItem_expected, if_neg hd], by rw [makeItem_suggested, if_neg hd]⟩

/-- C3 counterexample: with a current-week-sales cell of `1` the stored
`dailySalesAvg` is `0.1` (the one-decimal rounding of `1/7`), not the
exact `1/7` the claim asserts. -/
theorem dailySalesAvg_rounding_counterexample :
    fetchItems 0 3 rowsOneSale = [itemOneSale] ∧
    itemOneSale.currentWeekSales = 1 ∧
    itemOneSale.dailySalesAvg = 1 / 10 ∧
    ((1 : Rat) / 10 ≠ (1 : Rat) / 7) := by
  refine ⟨rfl, rfl, ?_, by norm_num⟩
  have e : itemOneSale.dailySalesAvg = toFixed1 (dailySalesAvgOf 1) := rfl
  rw [e]
  norm_num [toFixed1, dailySalesAvgOf, round_eq]

/-- C3 (amended): the stored `dailySalesAvg` equals `currentWeekSales / 7`
rounded to one decimal place (`parseFloat(dailySales.toFixed(1))`), not
the exact quotient. -/
theorem dailySalesAvg_amended (today : Int) (month : Nat)
    (rows : List (List String)) (it : InventoryItem)
    (hmem : it ∈ fetchItems today month rows) :
    it.dailySalesAvg =
      ((round ((10 : Rat) * ((it.currentWeekSales : Rat) / 7)) : Int) : Rat) / 10 := by
  obtain ⟨st2, i, row, _, he⟩ := mem_fetchItems_repr hmem
  subst he
  rfl

/-- C3 witness: the rounding law instantiated on the `rowsOneSale` record. -/
theorem dailySalesAvg_amended_witness :
    itemOneSale.dailySalesAvg =
      ((round ((10 : Rat) * ((itemOneSale.currentWeekSales : Rat) / 7)) : Int) : Rat) / 10 :=
  dailySalesAvg_amended 0 3 rowsOneSale itemOneSale memItemOneSale

/-- C2 counterexample: a stock cell holding the numeral `-5` parses
successfully to `-5` and is carried into the record, so `currentStock` can
be negative. -/
theorem negative_stock_counterexample :
    jsParseInt "-5" = some (-5) ∧
    ((fetchItems 0 3 rowsNegStock).head?).map (fun it => it.currentStock) = some (-5) ∧
    ((-5 : Int) < 0) := by
  exact ⟨by decide, rfl, by decide⟩

/-- C2 (amended): `currentStock`, `currentWeekSales` and `lastWeekSales`
default to 0 on parse failure and are non-negative provided no raw cell of
the sheet parses to a negative integer; a raw negative numeral is carried
through unchanged. -/
theorem nonneg_counts_amended (today : Int) (month : Nat)
    (rows : List (List String))
    (hcells : ∀ row ∈ rows, ∀ cell ∈ row, 0 ≤ (jsParseInt cell).getD 0)
    (it : InventoryItem) (hmem : it ∈ fetchItems today month rows) :
    0 ≤ it.currentStock ∧ 0 ≤ it.currentWeekSales ∧ 0 ≤ it.lastWeekSales := by
  have h1 : it ∈ reconItems today month rows := (List.mem_filter.mp hmem).1
  obtain ⟨st2, i, row, hrow, he⟩ :=
    mem_reconstructAux (dataRowsOf rows) initFill 0 it h1
  have hmf := List.mem_filter.mp (show row ∈ (rows.drop 1).filter
    (fun r => 33 < r.length) from hrow)
  have hlen : 33 < row.length := by simpa using hmf.2
  have hrows : row ∈ rows := List.mem_of_mem_drop hmf.1
  subst he
  refine ⟨?_, ?_, ?_⟩
  · show 0 ≤ jsOr (jsParseInt (cellAt row 33)) 0
    exact jsOr_nonneg le_rfl (hcells row hrows _ (cellAt_mem hlen))
  · show 0 ≤ jsOr (jsParseInt (cellAt row 22)) 0
    exact jsOr_nonneg le_rfl (hcells row hrows _ (cellAt_mem (by omega)))
  · show 0 ≤ jsOr (jsParseInt (cellAt row 21)) 0
    exact jsOr_nonneg le_rfl (hcells row hrows _ (cellAt_mem (by omega)))

/-- C2 witness: on a sheet whose cells never parse negative, the three
count fields of the reconstructed record are non-negative. -/
theorem nonneg_counts_amended_witness :
    0 ≤ itemA.currentStock ∧ 0 ≤ itemA.currentWeekSales ∧ 0 ≤ itemA.lastWeekSales :=
  nonneg_counts_amended 0 3 rowsA (by decide) itemA memItemA

/-- C4 counterexample: a reorder-point cell holding `0` parses successfully
to `0`, yet the record carries the fallback 10 — `|| fallback` also fires
on a successfully parsed zero, so a parsed value is not always used
unchanged. -/
theorem zero_threshold_counterexample :
    jsParseInt "0" = some 0 ∧
    ((fetchItems 0 3 rowsZeroRp).head?).map (fun it => it.reorderPoint) = some 10 ∧
    ((10 : Int) ≠ 0) := by
  exact ⟨by decide, rfl, by decide⟩

/-- C4 (amended): each numeric field comes from `parseInt` of its fixed
column with the documented fallback (0 for counts and unit cost, 5 for
safety stock, 10 for the reorder point), and the fallback is substituted
exactly when parsing fails or yields 0; a parsed nonzero value is used
unchanged, and no error is ever raised (the pipeline is total). -/
theorem numeric_field_fallback_amended :
    (∀ (today : Int) (month : Nat) (st : FillState) (idx : Nat) (row : List String),
      (makeItem today month st idx row).currentStock =
          jsOr (jsParseInt (cellAt row 33)) 0 ∧
      (makeItem today month st idx row).inProductionStock =
          jsOr (jsParseInt (cellAt row 34)) 0 ∧
      (makeItem today month st idx row).currentWeekSales =
          jsOr (jsParseInt (cellAt row 22)) 0 ∧
      (makeItem today month st idx row).lastWeekSales =
          jsOr (jsParseInt (cellAt row 21)) 0 ∧
      (makeItem today month st idx row).unitCost =
          jsOr (jsParseInt (cellAt row 10)) 0 ∧
      (makeItem today month st idx row).safetyStock =
          jsOr (jsParseInt (cellAt row 6)) 5 ∧
      (makeItem today month st idx row).reorderPoint =
          jsOr (jsParseInt (cellAt row 7)) 10) ∧
    (∀ fb : Int, jsOr none fb = fb) ∧
    (∀ fb : Int, jsOr (some 0) fb = fb) ∧
    (∀ (n fb : Int), n ≠ 0 → jsOr (some n) fb = n) := by
  refine ⟨?_, ?_, ?_, ?_⟩
  · intro today month st idx row
    exact ⟨rfl, rfl, rfl, rfl, rfl, rfl, rfl⟩
  · intro fb
    rfl
  · intro fb
    rfl
  · intro n fb h
    simp [jsOr, h]

/-- C4 witness: a parsed nonzero value is kept, and the `rowA` record's
reorder point is the parse-with-fallback of its column-7 cell. -/
theorem numeric_field_fallback_amended_witness :
    jsOr (some 5) 3 = 5 ∧
    itemA.reorderPoint = jsOr (jsParseInt (cellAt rowA 7)) 10 :=
  ⟨numeric_field_fallback_amended.2.2.2 5 3 (by decide),
   (numeric_field_fallback_amended.1 0 3 (updateFill initFill rowA) 0 rowA).2.2.2.2.2.2⟩

/-- C10 witness: the `rowsA` record (horizon 7) forecasts day 0 + 7 and an
order date lead-time days earlier. -/
theorem stockout_forecast_witness :
    itemA.expectedStockOutDate =
      DateLabel.onDay (0 + daysToStockOutOf itemA.currentStock itemA.currentWeekSales) ∧
    itemA.suggestedOrderDate =
      DateLabel.onDay (0 + daysToStockOutOf itemA.currentStock itemA.currentWeekSales -
        itemA.leadTimeDays) :=
  (stockout_forecast 0 3 rowsA itemA memItemA).2.2.2
    (by rw [itemA_horizon]; norm_num)


/-- C7: a data row whose hierarchical cell (product name, brand or
category) is blank yields a record carrying the nearest preceding data
row's non-blank value for that field, and a non-blank cell updates the
held forward-fill value used by all subsequent rows of the pass. -/
theorem forward_fill_correct (today : Int) (month : Nat)
    (rows : List (List String)) (k : Nat) (row : List String) (it : InventoryItem)
    (hrow : (dataRowsOf rows)[k]? = some row)
    (hit : (reconItems today month rows)[k]? = some it) :
    (cellAt row 12 = "" →
      ∀ v, lastNonBlank (fieldCol 12 ((dataRowsOf rows).take k)) = some v →
        it.productName = v) ∧
    (cellAt row 2 = "" →
      ∀ v, lastNonBlank (fieldCol 2 ((dataRowsOf rows).take k)) = some v →
        it.brand = v) ∧
    (cellAt row 1 = "" →
      ∀ v, lastNonBlank (fieldCol 1 ((dataRowsOf rows).take k)) = some v →
        it.category = v) ∧
    (cellAt row 12 ≠ "" →
      (fillAfter initFill ((dataRowsOf rows).take (k + 1))).productName = cellAt row 12) ∧
    (cellAt row 2 ≠ "" →
      (fillAfter initFill ((dataRowsOf rows).take (k + 1))).brand = cellAt row 2) ∧
    (cellAt row 1 ≠ "" →
      (fillAfter initFill ((dataRowsOf rows).take (k + 1))).category = cellAt row 1) := by
  have hit2 : (reconstructAux today month initFill 0 (dataRowsOf rows))[k]? = some it := hit
  rw [reconstructAux_getElem?, hrow, Option.map_some'] at hit2
  have he := Option.some.inj hit2
  have htake : (dataRowsOf rows).take (k + 1) = (dataRowsOf rows).take k ++ [row] := by
    rw [List.take_succ, hrow]
    rfl
  obtain ⟨g1, g2, g3⟩ := fillAfter_field ((dataRowsOf rows).take k) initFill
  refine ⟨?_, ?_, ?_, ?_, ?_, ?_⟩
  · intro hb v hv
    rw [← he, makeItem_productName]
    have hpn : (fillAfter initFill ((dataRowsOf rows).take (k + 1))).productName = v := by
      rw [htake, fillAfter_snoc, updateFill_productName, if_neg (by simp [hb]), g1, hv]
      rfl
    rw [hpn]
    unfold jsOrStr
    rw [if_neg (lastNonBlank_some_ne hv)]
  · intro hb v hv
    rw [← he, makeItem_brand]
    have hpn : (fillAfter initFill ((dataRowsOf rows).take (k + 1))).brand = v := by
      rw [htake, fillAfter_snoc, updateFill_brand, if_neg (by simp [hb]), g2, hv]
      rfl
    rw [hpn]
    unfold jsOrStr
    rw [if_neg (lastNonBlank_some_ne hv)]
  · intro hb v hv
    rw [← he, makeItem_category]
    have hpn : (fillAfter initFill ((dataRowsOf rows).take (k + 1))).category = v := by
      rw [htake, fillAfter_snoc, updateFill_category, if_neg (by simp [hb]), g3, hv]
      rfl
    rw [hpn]
    unfold jsOrStr
    rw [if_neg (lastNonBlank_some_ne hv)]
  · intro hnb
    rw [htake, fillAfter_snoc, updateFill_productName, if_pos hnb]
  · intro hnb
    rw [htake, fillAfter_snoc, updateFill_brand, if_pos hnb]
  · intro hnb
    rw [htake, fillAfter_snoc, updateFill_category, if_pos hnb]

/-- C7 witness: in `rowsFill` the second data row has a blank name cell
and its record inherits the first row's name. -/
theorem forward_fill_correct_witness : itemFill.productName = "상품" :=
  (forward_fill_correct 0 3 rowsFill 1 rowBlank itemFill rfl rfl).1 rfl "상품" rfl

/-- C8: every record surviving the final filter has a non-blank product
name, and a record whose product name never resolves to a non-blank value
even after forward-fill (no non-blank name cell up to and including its
row) is excluded from the output. -/
theorem product_name_filter (today : Int) (month : Nat) (rows : List (List String)) :
    (∀ it ∈ fetchItems today month rows, it.productName ≠ "") ∧
    (∀ (k : Nat) (it : InventoryItem),
      (reconItems today month rows)[k]? = some it →
      lastNonBlank (fieldCol 12 ((dataRowsOf rows).take (k + 1))) = none →
      it ∉ fetchItems today month rows) := by
  constructor
  · intro it hmem
    obtain ⟨st2, i, row, _, he⟩ := mem_fetchItems_repr hmem
    subst he
    rw [makeItem_productName]
    unfold jsOrStr
    split_ifs with h
    · decide
    · exact h
  · intro k it hk hnone hmem
    have hit2 : (reconstructAux today month initFill 0 (dataRowsOf rows))[k]? = some it := hk
    rw [reconstructAux_getElem?] at hit2
    cases hrow : (dataRowsOf rows)[k]? with
    | none =>
      rw [hrow] at hit2
      simp at hit2
    | some row =>
      rw [hrow, Option.map_some'] at hit2
      have he := Option.some.inj hit2
      have hpn : it.productName = "알 수 없는 상품" := by
        rw [← he, makeItem_productName]
        obtain ⟨g1, _, _⟩ := fillAfter_field ((dataRowsOf rows).take (k + 1)) initFill
        have hempty : (fillAfter initFill ((dataRowsOf rows).take (k + 1))).productName = "" := by
          rw [g1, hnone]
          rfl
        unfold jsOrStr
        rw [if_pos hempty]
      have hfil : (it.productName != "알 수 없는 상품") = true :=
        (List.mem_filter.mp hmem).2
      rw [hpn] at hfil
      simp at hfil

/-- C8 witness: the sole data row of `rowsUnnamed` has no resolvable
product name and its record is excluded from the output. -/
theorem product_name_filter_witness :
    (reconItems 0 3 rowsUnnamed)[0]? = some itemUnnamed ∧
    itemUnnamed ∉ fetchItems 0 3 rowsUnnamed :=
  ⟨rfl, (product_name_filter 0 3 rowsUnnamed).2 0 itemUnnamed rfl rfl⟩
